import Mathlib

/-!
Verification development for the vSphere virtual-machine datasource of the
packer-plugin-vsphere repository.

The embedding models the selection pipeline of
datasource/virtualmachine/data.go (Configure, Execute) and the filter
stages filterByNameRegex, filterByTemplate, filterByHost, filterByTags and
filterByLatest of the accompanying filter file.

Modelling conventions:
- every remote lookup performed through the vCenter driver (govmomi finder,
  property collector, tags manager) is a field of the Driver structure and
  returns an Except value, so a failing remote call is a first-class outcome;
- a Go runtime panic (nil-pointer dereference) is modelled by the
  distinguished Res.crash outcome, separate from a returned error;
- timestamps are natural numbers; the Go zero time.Time is 0 and the
  time.Time.After comparison is the strict order on Nat;
- the Go regexp package is external, so it is modelled by an abstract
  compile function of type String to Option GoRegexp; a compile failure is
  none, matching regexp.Compile returning a nil pointer and an error.
-/

namespace PackerVsphere

/-- A virtual machine handle. Only its inventory name is observable locally;
every other attribute requires a remote lookup through the driver. -/
structure VirtualMachine where
  Name : String
deriving DecidableEq, Repr

/-- A required tag from the configuration: models the Tag struct of data.go
with its mapstructure fields name and category. -/
structure Tag where
  Name : String
  Category : String
deriving DecidableEq, Repr

/-- A tag attached to a machine as returned by the tags manager: carries the
tag name and the category ID, which must still be resolved to a category
name. Models vapi/tags.Tag. -/
structure AttachedTag where
  Name : String
  CategoryID : String
deriving DecidableEq, Repr

/-- A tag category as returned by the tags manager. Models vapi/tags.Category
restricted to the one field the pipeline reads. -/
structure Category where
  Name : String
deriving DecidableEq, Repr

/-- The config property block fetched per machine by filterByLatest. The
CreateDate pointer of govmomi may be nil, hence the Option. -/
structure VirtualMachineConfigInfo where
  CreateDate : Option Nat
deriving DecidableEq, Repr

/-- A compiled Go regular expression, abstracted to its matching function. -/
structure GoRegexp where
  MatchString : String → Bool

/-- Outcome of a stage or of Execute: a value, a returned error carrying the
user-facing message, or a runtime crash (Go panic by nil dereference). -/
inductive Res (α : Type) where
  | ok (val : α)
  | err (msg : String)
  | crash
deriving DecidableEq, Repr

/-- The vCenter driver: every remote capability the pipeline consumes, plus
the ambient regexp compiler. Each Except.error models a failed remote call. -/
structure Driver where
  virtualMachineList : String → Except String (List VirtualMachine)
  regexpCompile : String → Option GoRegexp
  isTemplate : VirtualMachine → Except String Bool
  hostSystem : String → Except String String
  hostVmRefs : String → Except String (List String)
  vmNames : List String → Except String (List String)
  getAttachedTags : VirtualMachine → Except String (List AttachedTag)
  getCategory : String → Except String Category
  vmConfig : VirtualMachine → Except String VirtualMachineConfigInfo

/-- The datasource configuration after decoding: the three connection fields
Configure validates plus the filter fields of data.go. The Go Tags slice
distinguishes nil from empty, hence Option (List Tag). -/
structure Config where
  VCenterServer : String
  Username : String
  Password : String
  Name : String
  NameRegex : String
  Template : Bool
  Host : String
  Tags : Option (List Tag)
  Latest : Bool
deriving DecidableEq, Repr

/-- filterByNameRegex: compiles the pattern once and keeps the machines whose
name matches. The compile error is discarded in the source; calling
MatchString on the resulting nil pointer is a runtime panic, so a failed
compile yields none (crash) as soon as the list is non-empty, and the empty
result slice when the list is empty (the loop body never runs). -/
def filterByNameRegex (compile : String → Option GoRegexp)
    (vmList : List VirtualMachine) (nameRegex : String) :
    Option (List VirtualMachine) :=
  match vmList, compile nameRegex with
  | [], _ => some []
  | _ :: _, none => none
  | l, some re => some (l.filter (fun vm => re.MatchString vm.Name))

/-- filterByTemplate: keeps the machines whose template attribute is true;
the first failing attribute fetch aborts the stage with a wrapped error. -/
def filterByTemplate (d : Driver) :
    List VirtualMachine → Res (List VirtualMachine)
  | [] => Res.ok []
  | vm :: rest =>
    match d.isTemplate vm with
    | Except.error e =>
        Res.err ("error checking if virtual machine is a template: " ++ e)
    | Except.ok isTemp =>
      match filterByTemplate d rest with
      | Res.err e => Res.err e
      | Res.crash => Res.crash
      | Res.ok tail => Res.ok (if isTemp then vm :: tail else tail)

/-- filterByHost: resolves the configured host, fetches the member VM
references of the host once, resolves their names, then keeps each candidate
once per host member carrying the same name (the source appends inside the
inner loop without breaking, so duplicated member names duplicate the
candidate). -/
def filterByHost (d : Driver) (c : Config) (vmList : List VirtualMachine) :
    Res (List VirtualMachine) :=
  match d.hostSystem c.Host with
  | Except.error e => Res.err ("error finding defined host system: " ++ e)
  | Except.ok obj =>
    match d.hostVmRefs obj with
    | Except.error e =>
        Res.err ("error retrieving properties of host system: " ++ e)
    | Except.ok refs =>
      match d.vmNames refs with
      | Except.error e =>
          Res.err ("failed to get properties for the virtual machine: " ++ e)
      | Except.ok hostVms =>
        Res.ok (vmList.flatMap (fun filteredVm =>
          (hostVms.filter (fun hostVmName => filteredVm.Name == hostVmName)).map
            (fun _ => filteredVm)))

/-- Inner loop of filterByTags for one required tag: scan the attached tags
for a name match, resolve the category ID of the name-matching tag and
compare the category name; keep scanning past a category mismatch. -/
def scanAttached (d : Driver) (configTag : Tag) :
    List AttachedTag → Res Bool
  | [] => Res.ok false
  | realTag :: rest =>
    if configTag.Name == realTag.Name then
      match d.getCategory realTag.CategoryID with
      | Except.error e =>
          Res.err ("failed to return tag category for tag: " ++ e)
      | Except.ok category =>
        if configTag.Category == category.Name then Res.ok true
        else scanAttached d configTag rest
    else scanAttached d configTag rest

/-- Middle loop of filterByTags for one candidate: count matched required
tags, breaking at the first unmatched one (fail early), exactly as the
source loop with its break statement. -/
def countMatched (d : Driver) (realTagsList : List AttachedTag) :
    List Tag → Res Nat
  | [] => Res.ok 0
  | configTag :: rest =>
    match scanAttached d configTag realTagsList with
    | Res.err e => Res.err e
    | Res.crash => Res.crash
    | Res.ok true =>
      match countMatched d realTagsList rest with
      | Res.err e => Res.err e
      | Res.crash => Res.crash
      | Res.ok n => Res.ok (n + 1)
    | Res.ok false => Res.ok 0

/-- filterByTags: a candidate is appended to the result exactly when its
matched-tag count equals the number of required tags; any failing attached
tag or category lookup aborts the stage. -/
def filterByTags (d : Driver) (vmTags : List Tag) :
    List VirtualMachine → Res (List VirtualMachine)
  | [] => Res.ok []
  | vm :: rest =>
    match d.getAttachedTags vm with
    | Except.error e =>
        Res.err ("failed return tags for the virtual machine: " ++ e)
    | Except.ok realTagsList =>
      match countMatched d realTagsList vmTags with
      | Res.err e => Res.err e
      | Res.crash => Res.crash
      | Res.ok matchedTagsCount =>
        match filterByTags d vmTags rest with
        | Res.err e => Res.err e
        | Res.crash => Res.crash
        | Res.ok tail =>
          Res.ok (if matchedTagsCount = vmTags.length then vm :: tail else tail)

/-- Loop of filterByLatest with the running latestVM pointer (nil at entry)
and the running latestTimestamp (the zero time at entry). A nil CreateDate
pointer is dereferenced by the After call, hence crash; the strict After
comparison updates the pointer only on a strictly later timestamp. -/
def filterByLatestLoop (d : Driver) (latestVM : Option VirtualMachine)
    (latestTimestamp : Nat) :
    List VirtualMachine → Res (List (Option VirtualMachine))
  | [] => Res.ok [latestVM]
  | vm :: rest =>
    match d.vmConfig vm with
    | Except.error e =>
        Res.err
          ("error retrieving config properties for the virtual machine: " ++ e)
    | Except.ok cfg =>
      match cfg.CreateDate with
      | none => Res.crash
      | some t =>
        if latestTimestamp < t then filterByLatestLoop d (some vm) t rest
        else filterByLatestLoop d latestVM latestTimestamp rest

/-- filterByLatest: always produces a one-element slice holding the latestVM
pointer, which is still nil when no candidate had a strictly positive
timestamp. -/
def filterByLatest (d : Driver) (vmList : List VirtualMachine) :
    Res (List (Option VirtualMachine)) :=
  filterByLatestLoop d none 0 vmList

/-- Identifier of one optional filter stage of the Execute chain. -/
inductive StageId where
  | nameRegexStage
  | templateStage
  | hostStage
  | tagsStage
deriving DecidableEq, Repr

/-- Guard of the name-regex stage in Execute: the field is set. -/
def nameRegexGuard (c : Config) : Bool := c.NameRegex != ""

/-- Guard of the template stage in Execute: candidates remain and the
template flag is set. -/
def templateGuard (c : Config) (vms : List VirtualMachine) : Bool :=
  decide (0 < vms.length) && c.Template

/-- Guard of the host stage in Execute: candidates remain and the host field
is set. -/
def hostGuard (c : Config) (vms : List VirtualMachine) : Bool :=
  decide (0 < vms.length) && (c.Host != "")

/-- Guard of the tag stage in Execute: candidates remain and the tag slice is
non-nil (an empty but non-nil slice still runs the stage). -/
def tagsGuard (c : Config) (vms : List VirtualMachine) : Bool :=
  decide (0 < vms.length) && c.Tags.isSome

/-- Prefixes an error message, as fmt.Errorf with a wrapping format does at
each call site of Execute. -/
def wrapErr {α : Type} (pre : String) : Res α → Res α
  | Res.err e => Res.err (pre ++ e)
  | r => r

/-- The configured-field condition of each optional stage, as written in the
guards of Execute. -/
def stageConfigured (c : Config) : StageId → Bool
  | StageId.nameRegexStage => c.NameRegex != ""
  | StageId.templateStage => c.Template
  | StageId.hostStage => c.Host != ""
  | StageId.tagsStage => c.Tags.isSome

/-- Initial lookup of Execute: the glob finder. Its trace is empty since it
is not an optional stage. -/
def finderStep (d : Driver) (c : Config) :
    Res (List VirtualMachine) × List (StageId × Nat) :=
  match d.virtualMachineList c.Name with
  | Except.error e =>
      (Res.err ("failed to retrieve virtual machines list: " ++ e), [])
  | Except.ok vms => (Res.ok vms, [])

/-- Name-regex step of Execute with its guard; the trace records the stage
and the length of its input list when it runs. -/
def regexStep (d : Driver) (c : Config) (vms : List VirtualMachine) :
    Res (List VirtualMachine) × List (StageId × Nat) :=
  if nameRegexGuard c then
    ((match filterByNameRegex d.regexpCompile vms c.NameRegex with
      | none => Res.crash
      | some vms2 => Res.ok vms2),
     [(StageId.nameRegexStage, vms.length)])
  else (Res.ok vms, [])

/-- Template step of Execute with its guard and error wrapping. -/
def templateStep (d : Driver) (c : Config) (vms : List VirtualMachine) :
    Res (List VirtualMachine) × List (StageId × Nat) :=
  if templateGuard c vms then
    (wrapErr "failed to filter by template attribute: " (filterByTemplate d vms),
     [(StageId.templateStage, vms.length)])
  else (Res.ok vms, [])

/-- Host step of Execute with its guard and error wrapping. -/
def hostStep (d : Driver) (c : Config) (vms : List VirtualMachine) :
    Res (List VirtualMachine) × List (StageId × Nat) :=
  if hostGuard c vms then
    (wrapErr "failed to filter by host attribute: " (filterByHost d c vms),
     [(StageId.hostStage, vms.length)])
  else (Res.ok vms, [])

/-- Tag step of Execute with its guard and error wrapping; the guard ensures
the slice is non-nil, so getD only unwraps it. -/
def tagsStep (d : Driver) (c : Config) (vms : List VirtualMachine) :
    Res (List VirtualMachine) × List (StageId × Nat) :=
  if tagsGuard c vms then
    (wrapErr "failed to filter by tags: " (filterByTags d (c.Tags.getD []) vms),
     [(StageId.tagsStage, vms.length)])
  else (Res.ok vms, [])

/-- Sequences two traced steps: the next step runs only on a successful
previous result, and traces accumulate. -/
def stepChain
    (prev : Res (List VirtualMachine) × List (StageId × Nat))
    (step : List VirtualMachine → Res (List VirtualMachine) × List (StageId × Nat)) :
    Res (List VirtualMachine) × List (StageId × Nat) :=
  match prev with
  | (Res.ok vms, tr) => ((step vms).1, tr ++ (step vms).2)
  | other => other

/-- The filter chain of Execute (glob finder then the four optional stages in
source order), instrumented with a trace of every optional stage invocation
and the length of its input list. The first component mirrors the chain of
Execute exactly. -/
def applyFiltersT (d : Driver) (c : Config) :
    Res (List VirtualMachine) × List (StageId × Nat) :=
  stepChain
    (stepChain
      (stepChain
        (stepChain (finderStep d c) (regexStep d c))
        (templateStep d c))
      (hostStep d c))
    (tagsStep d c)

/-- The filter chain of Execute: the candidate list surviving the glob lookup
and the four optional stages. -/
def applyFilters (d : Driver) (c : Config) : Res (List VirtualMachine) :=
  (applyFiltersT d c).1

/-- Final cardinality rule of Execute on the surviving list: empty fails,
more than one fails unless Latest is set, in which case filterByLatest
reduces the list; the sole element then provides the output name, crashing
on the nil pointer that filterByLatest leaves when no timestamp was strictly
positive. -/
def finalize (d : Driver) (c : Config) (filteredVms : List VirtualMachine) :
    Res String :=
  if filteredVms.length = 0 then
    Res.err "no virtual machine matches the filters"
  else if 1 < filteredVms.length then
    if c.Latest then
      match wrapErr "failed to find the latest virtual machine: "
          (filterByLatest d filteredVms) with
      | Res.err e => Res.err e
      | Res.crash => Res.crash
      | Res.ok latestList =>
        match latestList with
        | [] => Res.crash
        | none :: _ => Res.crash
        | some vm :: _ => Res.ok vm.Name
    else
      Res.err "more than one virtual machine matched the filters"
  else
    match filteredVms with
    | vm :: _ => Res.ok vm.Name
    | [] => Res.crash

/-- Execute of the datasource: the filter chain followed by the cardinality
rule. Driver construction is ambient (the Driver argument). -/
def execute (d : Driver) (c : Config) : Res String :=
  match applyFilters d c with
  | Res.err e => Res.err e
  | Res.crash => Res.crash
  | Res.ok filteredVms => finalize d c filteredVms

/-- Name defaulting performed by Configure before validation: an unset name
glob becomes the star pattern. -/
def withDefaultName (c : Config) : Config :=
  if c.Name = "" then { c with Name := "*" } else c

/-- The validation messages Configure appends to its MultiError, in source
order: the three required connection fields, then one message per tag block
missing its name or category. -/
def configureValidationErrors (c : Config) : List String :=
  (if c.VCenterServer = "" then ["\x27vcenter_server\x27 is required"] else []) ++
  (if c.Username = "" then ["\x27username\x27 is required"] else []) ++
  (if c.Password = "" then ["\x27password\x27 is required"] else []) ++
  ((c.Tags.getD []).flatMap (fun tag =>
    if (tag.Name == "") || (tag.Category == "") then
      ["both name and category are required for tag"]
    else []))

/-- Outcome of Configure: a decode failure returned as-is, an aggregated
MultiError of validation messages, or the decoded configuration with its
defaulted name. -/
inductive ConfigureResult where
  | decodeErr (e : String)
  | errs (msgs : List String)
  | ok (c : Config)
deriving DecidableEq, Repr

/-- Configure of the datasource: decode (modelled as an Except argument,
since mapstructure decoding is external), default the name glob, then
validate and aggregate every violation into one MultiError. -/
def configure (raws : Except String Config) : ConfigureResult :=
  match raws with
  | Except.error e => ConfigureResult.decodeErr e
  | Except.ok c0 =>
    let c := withDefaultName c0
    match configureValidationErrors c with
    | [] => ConfigureResult.ok c
    | msgs => ConfigureResult.errs msgs

/-! Pure mirrors of the stage loops, used to state the functional claims. -/

/-- Pure per-tag match: some attached tag carries the required name and its
category ID resolves to the required category name. -/
def tagMatched (resolve : String → Category) (realTagsList : List AttachedTag)
    (configTag : Tag) : Bool :=
  realTagsList.any (fun realTag =>
    (configTag.Name == realTag.Name) &&
    (configTag.Category == (resolve realTag.CategoryID).Name))

/-- Length of the longest matched leading run of required tags: the value the
fail-early counting loop of filterByTags produces. -/
def countLeadingMatched (p : Tag → Bool) : List Tag → Nat
  | [] => 0
  | t :: rest => if p t then countLeadingMatched p rest + 1 else 0

/-- Pure mirror of the filterByLatest loop: the latest pointer after folding
the strict comparison over the list. -/
def latestAcc (ts : VirtualMachine → Nat) (acc : Option VirtualMachine)
    (t : Nat) : List VirtualMachine → Option VirtualMachine
  | [] => acc
  | vm :: rest =>
    if t < ts vm then latestAcc ts (some vm) (ts vm) rest
    else latestAcc ts acc t rest

/-! Concrete fixtures for witnesses and counterexamples. -/

/-- A first concrete machine. -/
def vmA : VirtualMachine := ⟨"vm-a"⟩

/-- A second concrete machine. -/
def vmB : VirtualMachine := ⟨"vm-b"⟩

/-- A driver whose every remote call fails; concrete drivers below override
the fields a scenario exercises. -/
def noDriver : Driver where
  virtualMachineList := fun _ => Except.error "unreachable"
  regexpCompile := fun _ => none
  isTemplate := fun _ => Except.error "unreachable"
  hostSystem := fun _ => Except.error "unreachable"
  hostVmRefs := fun _ => Except.error "unreachable"
  vmNames := fun _ => Except.error "unreachable"
  getAttachedTags := fun _ => Except.error "unreachable"
  getCategory := fun _ => Except.error "unreachable"
  vmConfig := fun _ => Except.error "unreachable"

/-- A configuration with valid connection fields and no optional filter. -/
def baseConfig : Config :=
  ⟨"vcenter.example", "user", "secret", "*", "", false, "", none, false⟩

/-- Concrete timestamps: vmB is strictly newer than every other machine. -/
def tsAB : VirtualMachine → Nat := fun vm => if vm.Name == "vm-b" then 2 else 1

/-- Driver whose creation-time fetches succeed with the tsAB timestamps. -/
def dLatest : Driver :=
  { noDriver with vmConfig := fun vm => Except.ok ⟨some (tsAB vm)⟩ }

/-- Driver whose creation-time fetches all succeed with the zero timestamp. -/
def dAllZero : Driver :=
  { noDriver with vmConfig := fun _ => Except.ok ⟨some 0⟩ }

/-- Driver with a two-machine inventory and the tsAB timestamps. -/
def dC1w : Driver :=
  { noDriver with
      virtualMachineList := fun _ => Except.ok [vmA, vmB]
      vmConfig := fun vm => Except.ok ⟨some (tsAB vm)⟩ }

/-- Driver with a two-machine inventory whose timestamps are all zero. -/
def dZeroTimes : Driver :=
  { noDriver with
      virtualMachineList := fun _ => Except.ok [vmA, vmB]
      vmConfig := fun _ => Except.ok ⟨some 0⟩ }

/-- Configuration asking for the latest machine, with no other filter. -/
def cLatest : Config := { baseConfig with Latest := true }

/-- A regexp compiler that fails on every pattern. -/
def compileFailAll : String → Option GoRegexp := fun _ => none

/-- Driver whose host lookup reports the name vm-a twice among the host
members. -/
def dDupHost : Driver :=
  { noDriver with
      hostSystem := fun _ => Except.ok "host-obj"
      hostVmRefs := fun _ => Except.ok ["ref-1", "ref-2"]
      vmNames := fun _ => Except.ok ["vm-a", "vm-a"] }

/-- Configuration with the host filter set. -/
def cHost : Config := { baseConfig with Host := "esx-01" }

/-- Driver whose template fetches all succeed and report true. -/
def dTempl : Driver := { noDriver with isTemplate := fun _ => Except.ok true }

/-- A required tag: name team in category ops. -/
def tagTeamOps : Tag := ⟨"team", "ops"⟩

/-- An attached tag named team whose category ID is cat-1. -/
def attTeam : AttachedTag := ⟨"team", "cat-1"⟩

/-- Driver whose tag lookups succeed: every machine carries attTeam and every
category ID resolves to the category named ops. -/
def dTags : Driver :=
  { noDriver with
      getAttachedTags := fun _ => Except.ok [attTeam]
      getCategory := fun _ => Except.ok ⟨"ops"⟩ }

/-- Driver whose attached-tag lookup fails. -/
def dTagsFail : Driver :=
  { noDriver with getAttachedTags := fun _ => Except.error "boom" }

/-- Configuration with only the template filter set. -/
def cTempl : Config := { baseConfig with Template := true }

/-- Driver with a one-machine inventory that is a template. -/
def dFindTempl : Driver :=
  { noDriver with
      virtualMachineList := fun _ => Except.ok [vmA]
      isTemplate := fun _ => Except.ok true }

/-- Configuration with only the name-regex filter set. -/
def cRegex : Config := { baseConfig with NameRegex := "nomatch" }

/-- Driver with a one-machine inventory and a compiler whose compiled
pattern matches nothing. -/
def dNoMatch : Driver :=
  { noDriver with
      virtualMachineList := fun _ => Except.ok [vmA]
      regexpCompile := fun _ => some ⟨fun _ => false⟩ }

/-- A configuration with an empty username and a tag block missing its
name. -/
def cBadConfig : Config :=
  ⟨"vcenter.example", "", "secret", "", "", false, "", some [⟨"", "ops"⟩], false⟩

/-- The aggregated validation messages Configure produces for cBadConfig. -/
def badConfigMsgs : List String :=
  ["\x27username\x27 is required", "both name and category are required for tag"]

/-! Lemmas about the latest-selection stage. -/

theorem filterByLatestLoop_ok (d : Driver) (ts : VirtualMachine → Nat) :
    ∀ (l : List VirtualMachine) (acc : Option VirtualMachine) (t : Nat),
      (∀ vm ∈ l, d.vmConfig vm = Except.ok ⟨some (ts vm)⟩) →
      filterByLatestLoop d acc t l = Res.ok [latestAcc ts acc t l]
  | [], _, _, _ => rfl
  | vm :: rest, acc, t, h => by
    have hvm := h vm (List.mem_cons_self vm rest)
    have hrest : ∀ v ∈ rest, d.vmConfig v = Except.ok ⟨some (ts v)⟩ :=
      fun v hv => h v (List.mem_cons_of_mem _ hv)
    simp only [filterByLatestLoop, hvm, latestAcc]
    split
    · exact filterByLatestLoop_ok d ts rest (some vm) (ts vm) hrest
    · exact filterByLatestLoop_ok d ts rest acc t hrest

theorem latestAcc_of_le (ts : VirtualMachine → Nat) :
    ∀ (l : List VirtualMachine) (acc : Option VirtualMachine) (t : Nat),
      (∀ v ∈ l, ts v ≤ t) → latestAcc ts acc t l = acc
  | [], _, _, _ => rfl
  | vm :: rest, acc, t, h => by
    have hvm : ¬ t < ts vm := Nat.not_lt.mpr (h vm (List.mem_cons_self vm rest))
    simp only [latestAcc, if_neg hvm]
    exact latestAcc_of_le ts rest acc t (fun v hv => h v (List.mem_cons_of_mem _ hv))

theorem latestAcc_of_gt (ts : VirtualMachine → Nat) :
    ∀ (l : List VirtualMachine) (acc : Option VirtualMachine) (t : Nat),
      (∃ v ∈ l, t < ts v) →
      ∃ w l1 l2, latestAcc ts acc t l = some w ∧ l = l1 ++ w :: l2 ∧
        (∀ v ∈ l1, ts v ≤ t ∨ ts v < ts w) ∧ t < ts w ∧ ∀ v ∈ l, ts v ≤ ts w
  | [], _, _, h => absurd h (by simp)
  | vm :: rest, acc, t, h => by
    by_cases hvm : t < ts vm
    · by_cases hrest : ∃ v ∈ rest, ts vm < ts v
      · obtain ⟨w, l1, l2, heq, hsplit, hl1, hgt, hmax⟩ :=
          latestAcc_of_gt ts rest (some vm) (ts vm) hrest
        refine ⟨w, vm :: l1, l2, ?_, ?_, ?_, ?_, ?_⟩
        · simpa only [latestAcc, if_pos hvm] using heq
        · simpa using hsplit
        · intro v hv
          rcases List.mem_cons.mp hv with hv | hv
          · exact Or.inr (hv ▸ hgt)
          · rcases hl1 v hv with h1 | h1
            · exact Or.inr (Nat.lt_of_le_of_lt h1 hgt)
            · exact Or.inr h1
        · exact Nat.lt_trans hvm hgt
        · intro v hv
          rcases List.mem_cons.mp hv with hv | hv
          · exact hv ▸ Nat.le_of_lt hgt
          · exact hmax v hv
      · push_neg at hrest
        refine ⟨vm, [], rest, ?_, by simp, by simp, hvm, ?_⟩
        · simp only [latestAcc, if_pos hvm]
          exact latestAcc_of_le ts rest (some vm) (ts vm) hrest
        · intro v hv
          rcases List.mem_cons.mp hv with hv | hv
          · exact hv ▸ Nat.le_refl _
          · exact hrest v hv
    · have hex : ∃ v ∈ rest, t < ts v := by
        obtain ⟨v, hv, hlt⟩ := h
        rcases List.mem_cons.mp hv with hv | hv
        · exact absurd (hv ▸ hlt) hvm
        · exact ⟨v, hv, hlt⟩
      obtain ⟨w, l1, l2, heq, hsplit, hl1, hgt, hmax⟩ :=
        latestAcc_of_gt ts rest acc t hex
      refine ⟨w, vm :: l1, l2, ?_, ?_, ?_, hgt, ?_⟩
      · simpa only [latestAcc, if_neg hvm] using heq
      · simpa using hsplit
      · intro v hv
        rcases List.mem_cons.mp hv with hv | hv
        · exact Or.inl (hv ▸ Nat.le_of_not_lt hvm)
        · exact hl1 v hv
      · intro v hv
        rcases List.mem_cons.mp hv with hv | hv
        · exact hv ▸ Nat.le_of_lt (Nat.lt_of_le_of_lt (Nat.le_of_not_lt hvm) hgt)
        · exact hmax v hv

theorem filterByLatest_spec (d : Driver) (ts : VirtualMachine → Nat)
    (vmList : List VirtualMachine)
    (hfetch : ∀ vm ∈ vmList, d.vmConfig vm = Except.ok ⟨some (ts vm)⟩)
    (hnz : ∃ vm ∈ vmList, 0 < ts vm) :
    ∃ w l1 l2, filterByLatest d vmList = Res.ok [some w] ∧
      vmList = l1 ++ w :: l2 ∧ (∀ v ∈ l1, ts v < ts w) ∧
      ∀ v ∈ vmList, ts v ≤ ts w := by
  obtain ⟨w, l1, l2, heq, hsplit, hl1, hgt, hmax⟩ :=
    latestAcc_of_gt ts vmList none 0 hnz
  refine ⟨w, l1, l2, ?_, hsplit, ?_, hmax⟩
  · rw [filterByLatest, filterByLatestLoop_ok d ts vmList none 0 hfetch, heq]
  · intro v hv
    rcases hl1 v hv with h1 | h1
    · exact Nat.lt_of_le_of_lt h1 hgt
    · exact h1

theorem filterByLatestLoop_length (d : Driver) :
    ∀ (l : List VirtualMachine) (acc : Option VirtualMachine) (t : Nat)
      (out : List (Option VirtualMachine)),
      filterByLatestLoop d acc t l = Res.ok out → out.length = 1
  | [], acc, t, out, h => by
    simp only [filterByLatestLoop, Res.ok.injEq] at h
    simp [← h]
  | vm :: rest, acc, t, out, h => by
    simp only [filterByLatestLoop] at h
    rcases hc : d.vmConfig vm with e | cfg
    · simp only [hc] at h
      exact Res.noConfusion h
    · simp only [hc] at h
      rcases hd : cfg.CreateDate with _ | s
      · simp only [hd] at h
        exact Res.noConfusion h
      · simp only [hd] at h
        by_cases ht : t < s
        · rw [if_pos ht] at h
          exact filterByLatestLoop_length d rest (some vm) s out h
        · rw [if_neg ht] at h
          exact filterByLatestLoop_length d rest acc t out h

/-! Lemmas about the tag-membership stage. -/

theorem scanAttached_ok (d : Driver) (resolve : String → Category) (configTag : Tag) :
    ∀ realTags : List AttachedTag,
      (∀ a ∈ realTags, d.getCategory a.CategoryID = Except.ok (resolve a.CategoryID)) →
      scanAttached d configTag realTags = Res.ok (tagMatched resolve realTags configTag)
  | [], _ => rfl
  | realTag :: rest, h => by
    have hhead := h realTag (List.mem_cons_self _ _)
    have hrest : ∀ a ∈ rest, d.getCategory a.CategoryID = Except.ok (resolve a.CategoryID) :=
      fun a ha => h a (List.mem_cons_of_mem _ ha)
    have hrec := scanAttached_ok d resolve configTag rest hrest
    by_cases hn : (configTag.Name == realTag.Name) = true
    · by_cases hc : (configTag.Category == (resolve realTag.CategoryID).Name) = true
      · simp [scanAttached, hn, hhead, hc, tagMatched]
      · simp [scanAttached, hn, hhead, hc, hrec, tagMatched]
    · simp [scanAttached, hn, hrec, tagMatched]

theorem countMatched_ok (d : Driver) (resolve : String → Category)
    (realTags : List AttachedTag)
    (hcat : ∀ a ∈ realTags, d.getCategory a.CategoryID = Except.ok (resolve a.CategoryID)) :
    ∀ ts : List Tag,
      countMatched d realTags ts =
        Res.ok (countLeadingMatched (tagMatched resolve realTags) ts)
  | [] => rfl
  | configTag :: rest => by
    have hscan := scanAttached_ok d resolve configTag realTags hcat
    have hrec := countMatched_ok d resolve realTags hcat rest
    cases hm : tagMatched resolve realTags configTag
    · simp [countMatched, hscan, hm, countLeadingMatched]
    · simp [countMatched, hscan, hm, hrec, countLeadingMatched]

theorem countLeadingMatched_le (p : Tag → Bool) :
    ∀ ts : List Tag, countLeadingMatched p ts ≤ ts.length
  | [] => Nat.le_refl _
  | t :: rest => by
    have ih := countLeadingMatched_le p rest
    cases hp : p t
    · simp [countLeadingMatched, hp]
    · simp only [countLeadingMatched, hp, if_true, List.length_cons]
      omega

theorem countLeadingMatched_eq_length_iff (p : Tag → Bool) :
    ∀ ts : List Tag, (countLeadingMatched p ts = ts.length ↔ ts.all p = true)
  | [] => by simp [countLeadingMatched]
  | t :: rest => by
    have ih := countLeadingMatched_eq_length_iff p rest
    cases hp : p t
    · have h0 : countLeadingMatched p (t :: rest) = 0 := by simp [countLeadingMatched, hp]
      have hall : (t :: rest).all p = false := by simp [List.all_cons, hp]
      rw [h0, hall]
      simp only [List.length_cons, Bool.false_eq_true, iff_false]
      omega
    · simp [countLeadingMatched, hp, List.all_cons, ih]

theorem filterByTags_ok (d : Driver) (vmTags : List Tag)
    (rts : VirtualMachine → List AttachedTag) (resolve : String → Category) :
    ∀ vmList : List VirtualMachine,
      (∀ vm ∈ vmList, d.getAttachedTags vm = Except.ok (rts vm)) →
      (∀ vm ∈ vmList, ∀ a ∈ rts vm,
        d.getCategory a.CategoryID = Except.ok (resolve a.CategoryID)) →
      filterByTags d vmTags vmList =
        Res.ok (vmList.filter (fun vm => vmTags.all (tagMatched resolve (rts vm))))
  | [], _, _ => rfl
  | vm :: rest, hat, hcat => by
    have hhead := hat vm (List.mem_cons_self _ _)
    have hcnt := countMatched_ok d resolve (rts vm) (hcat vm (List.mem_cons_self _ _)) vmTags
    have hrec := filterByTags_ok d vmTags rts resolve rest
      (fun v hv => hat v (List.mem_cons_of_mem _ hv))
      (fun v hv => hcat v (List.mem_cons_of_mem _ hv))
    by_cases hall : vmTags.all (tagMatched resolve (rts vm)) = true
    · have hc : countLeadingMatched (tagMatched resolve (rts vm)) vmTags = vmTags.length :=
        (countLeadingMatched_eq_length_iff _ _).mpr hall
      simp [filterByTags, hhead, hcnt, hrec, hc, List.filter_cons, hall]
    · have hc : ¬ countLeadingMatched (tagMatched resolve (rts vm)) vmTags = vmTags.length :=
        fun hcc => hall ((countLeadingMatched_eq_length_iff _ _).mp hcc)
      simp [filterByTags, hhead, hcnt, hrec, hc, List.filter_cons, hall]

theorem countMatched_failfast (d : Driver) (realTags : List AttachedTag)
    (t : Tag) (hfail : scanAttached d t realTags = Res.ok false) :
    ∀ (ts1 ts2 ts2' : List Tag),
      countMatched d realTags (ts1 ++ t :: ts2) =
        countMatched d realTags (ts1 ++ t :: ts2')
  | [], ts2, ts2' => by simp [countMatched, hfail]
  | c :: ts1, ts2, ts2' => by
    have hrec := countMatched_failfast d realTags t hfail ts1 ts2 ts2'
    simp only [List.cons_append, countMatched, List.append_eq, hrec]

theorem filterByTags_nil_tags (d : Driver) :
    ∀ vmList : List VirtualMachine,
      (∀ vm ∈ vmList, ∃ rt, d.getAttachedTags vm = Except.ok rt) →
      filterByTags d [] vmList = Res.ok vmList
  | [], _ => rfl
  | vm :: rest, h => by
    obtain ⟨rt, hrt⟩ := h vm (List.mem_cons_self _ _)
    have hrec := filterByTags_nil_tags d rest (fun v hv => h v (List.mem_cons_of_mem _ hv))
    simp [filterByTags, hrt, hrec, countMatched]

/-! Length lemmas for the individual stages. -/

theorem filterByNameRegex_length (compile : String → Option GoRegexp)
    (vms : List VirtualMachine) (r : String) (out : List VirtualMachine)
    (h : filterByNameRegex compile vms r = some out) : out.length ≤ vms.length := by
  cases vms with
  | nil =>
    simp only [filterByNameRegex, Option.some.injEq] at h
    simp [← h]
  | cons vm rest =>
    cases hc : compile r with
    | none => simp [filterByNameRegex, hc] at h
    | some re =>
      simp only [filterByNameRegex, hc, Option.some.injEq] at h
      rw [← h]
      exact List.length_filter_le _ _

theorem filterByTemplate_length (d : Driver) :
    ∀ (vms out : List VirtualMachine),
      filterByTemplate d vms = Res.ok out → out.length ≤ vms.length
  | [], out, h => by
    simp only [filterByTemplate, Res.ok.injEq] at h
    simp [← h]
  | vm :: rest, out, h => by
    simp only [filterByTemplate] at h
    cases hc : d.isTemplate vm with
    | error e => simp [hc] at h
    | ok b =>
      simp only [hc] at h
      cases hr : filterByTemplate d rest with
      | err e => simp [hr] at h
      | crash => simp [hr] at h
      | ok tail =>
        simp only [hr, Res.ok.injEq] at h
        have ih := filterByTemplate_length d rest tail hr
        cases b
        · simp only [Bool.false_eq_true, if_false] at h
          rw [← h, List.length_cons]
          omega
        · simp only [if_true] at h
          rw [← h]
          simp only [List.length_cons]
          omega

theorem filterByTags_length (d : Driver) (vmTags : List Tag) :
    ∀ (vms out : List VirtualMachine),
      filterByTags d vmTags vms = Res.ok out → out.length ≤ vms.length
  | [], out, h => by
    simp only [filterByTags, Res.ok.injEq] at h
    simp [← h]
  | vm :: rest, out, h => by
    simp only [filterByTags] at h
    cases hc : d.getAttachedTags vm with
    | error e => simp [hc] at h
    | ok realTags =>
      simp only [hc] at h
      cases hm : countMatched d realTags vmTags with
      | err e => simp [hm] at h
      | crash => simp [hm] at h
      | ok cnt =>
        simp only [hm] at h
        cases hr : filterByTags d vmTags rest with
        | err e => simp [hr] at h
        | crash => simp [hr] at h
        | ok tail =>
          simp only [hr, Res.ok.injEq] at h
          have ih := filterByTags_length d vmTags rest tail hr
          by_cases hcnt : cnt = vmTags.length
          · rw [if_pos hcnt] at h
            rw [← h, List.length_cons, List.length_cons]
            omega
          · rw [if_neg hcnt] at h
            rw [← h, List.length_cons]
            omega

theorem nodup_filter_beq_length (a : String) :
    ∀ l : List String, l.Nodup → (l.filter (fun x => a == x)).length ≤ 1
  | [], _ => by simp
  | b :: rest, h => by
    have hnd := List.nodup_cons.mp h
    by_cases hab : (a == b) = true
    · have hae : a = b := by simpa using hab
      have hnil : rest.filter (fun x => a == x) = [] := by
        rw [List.filter_eq_nil_iff]
        intro x hx hax
        have hxa : a = x := by simpa using hax
        exact hnd.1 (hae ▸ hxa ▸ hx)
      simp [List.filter_cons, hab, hnil]
    · simp only [List.filter_cons, hab, if_false, Bool.false_eq_true]
      exact nodup_filter_beq_length a rest hnd.2

theorem flatMap_single_length (f : VirtualMachine → List VirtualMachine)
    (hf : ∀ vm, (f vm).length ≤ 1) :
    ∀ vms : List VirtualMachine, (vms.flatMap f).length ≤ vms.length
  | [] => by simp
  | vm :: rest => by
    have ih := flatMap_single_length f hf rest
    have hv := hf vm
    simp only [List.flatMap_cons, List.length_append, List.length_cons]
    omega

theorem filterByHost_length (d : Driver) (c : Config)
    (hnodup : ∀ refs names, d.vmNames refs = Except.ok names → names.Nodup)
    (vms out : List VirtualMachine)
    (h : filterByHost d c vms = Res.ok out) : out.length ≤ vms.length := by
  simp only [filterByHost] at h
  cases hh : d.hostSystem c.Host with
  | error e => simp [hh] at h
  | ok obj =>
    simp only [hh] at h
    cases hr : d.hostVmRefs obj with
    | error e => simp [hr] at h
    | ok refs =>
      simp only [hr] at h
      cases hn : d.vmNames refs with
      | error e => simp [hn] at h
      | ok hostVms =>
        simp only [hn, Res.ok.injEq] at h
        rw [← h]
        have hnd := hnodup refs hostVms hn
        refine flatMap_single_length _ (fun vm => ?_) vms
        rw [List.length_map]
        exact nodup_filter_beq_length vm.Name hostVms hnd

theorem filterByLatest_length (d : Driver) (vms : List VirtualMachine)
    (hne : vms ≠ []) (out : List (Option VirtualMachine))
    (h : filterByLatest d vms = Res.ok out) : out.length ≤ vms.length := by
  have h1 := filterByLatestLoop_length d vms none 0 out h
  cases vms with
  | nil => exact absurd rfl hne
  | cons vm rest =>
    rw [h1, List.length_cons]
    omega

/-! Lemmas about the instrumented filter chain. -/

theorem finderStep_trace (d : Driver) (c : Config) : (finderStep d c).2 = [] := by
  simp only [finderStep]
  cases d.virtualMachineList c.Name <;> rfl

theorem finderStep_ok (d : Driver) (c : Config) (vms : List VirtualMachine)
    (h : (finderStep d c).1 = Res.ok vms) :
    d.virtualMachineList c.Name = Except.ok vms := by
  simp only [finderStep] at h
  cases hv : d.virtualMachineList c.Name with
  | error e =>
    rw [hv] at h
    exact Res.noConfusion h
  | ok a =>
    rw [hv] at h
    simp only [Res.ok.injEq] at h
    rw [h]

theorem regexStep_trace (d : Driver) (c : Config) (vms : List VirtualMachine)
    (e : StageId × Nat) (h : e ∈ (regexStep d c vms).2) :
    e = (StageId.nameRegexStage, vms.length) ∧ nameRegexGuard c = true := by
  by_cases hg : nameRegexGuard c = true
  · refine ⟨?_, hg⟩
    simp only [regexStep, if_pos hg] at h
    simpa using h
  · simp only [regexStep, if_neg hg] at h
    exact absurd h (List.not_mem_nil e)

theorem templateStep_trace (d : Driver) (c : Config) (vms : List VirtualMachine)
    (e : StageId × Nat) (h : e ∈ (templateStep d c vms).2) :
    e = (StageId.templateStage, vms.length) ∧ templateGuard c vms = true := by
  by_cases hg : templateGuard c vms = true
  · refine ⟨?_, hg⟩
    simp only [templateStep, if_pos hg] at h
    simpa using h
  · simp only [templateStep, if_neg hg] at h
    exact absurd h (List.not_mem_nil e)

theorem hostStep_trace (d : Driver) (c : Config) (vms : List VirtualMachine)
    (e : StageId × Nat) (h : e ∈ (hostStep d c vms).2) :
    e = (StageId.hostStage, vms.length) ∧ hostGuard c vms = true := by
  by_cases hg : hostGuard c vms = true
  · refine ⟨?_, hg⟩
    simp only [hostStep, if_pos hg] at h
    simpa using h
  · simp only [hostStep, if_neg hg] at h
    exact absurd h (List.not_mem_nil e)

theorem tagsStep_trace (d : Driver) (c : Config) (vms : List VirtualMachine)
    (e : StageId × Nat) (h : e ∈ (tagsStep d c vms).2) :
    e = (StageId.tagsStage, vms.length) ∧ tagsGuard c vms = true := by
  by_cases hg : tagsGuard c vms = true
  · refine ⟨?_, hg⟩
    simp only [tagsStep, if_pos hg] at h
    simpa using h
  · simp only [tagsStep, if_neg hg] at h
    exact absurd h (List.not_mem_nil e)

theorem stepChain_trace_mem
    (p : Res (List VirtualMachine) × List (StageId × Nat))
    (step : List VirtualMachine → Res (List VirtualMachine) × List (StageId × Nat))
    (e : StageId × Nat) (h : e ∈ (stepChain p step).2) :
    e ∈ p.2 ∨ ∃ vms, p.1 = Res.ok vms ∧ e ∈ (step vms).2 := by
  rcases p with ⟨r, tr⟩
  cases r with
  | ok vms =>
    simp only [stepChain, List.mem_append] at h
    rcases h with h | h
    · exact Or.inl h
    · exact Or.inr ⟨vms, rfl, h⟩
  | err msg => exact Or.inl h
  | crash => exact Or.inl h

/-! Claim theorems. -/

/-- C3: for a non-empty candidate list whose creation-time fetches succeed
with present timestamps and at least one strictly positive timestamp, the
latest-selection stage returns the one-element list holding the candidate
with the latest creation timestamp; on ties the winner is the first such
candidate in iteration order, because only a strictly later timestamp
replaces the current one. -/
theorem c3_filterByLatest_latest_wins (d : Driver) (vmList : List VirtualMachine)
    (ts : VirtualMachine → Nat)
    (hfetch : ∀ vm ∈ vmList, d.vmConfig vm = Except.ok ⟨some (ts vm)⟩)
    (hne : vmList ≠ [])
    (hnz : ∃ vm ∈ vmList, 0 < ts vm) :
    ∃ w l1 l2, filterByLatest d vmList = Res.ok [some w] ∧
      vmList = l1 ++ w :: l2 ∧ (∀ v ∈ l1, ts v < ts w) ∧
      ∀ v ∈ vmList, ts v ≤ ts w :=
  filterByLatest_spec d ts vmList hfetch hnz

/-- Witness for C3 on a concrete two-machine list with timestamps 1 and 2. -/
theorem c3_witness :
    ∃ w l1 l2, filterByLatest dLatest [vmA, vmB] = Res.ok [some w] ∧
      ([vmA, vmB] : List VirtualMachine) = l1 ++ w :: l2 ∧
      (∀ v ∈ l1, tsAB v < tsAB w) ∧
      ∀ v ∈ ([vmA, vmB] : List VirtualMachine), tsAB v ≤ tsAB w :=
  c3_filterByLatest_latest_wins dLatest [vmA, vmB] tsAB
    (fun vm _ => rfl) (by simp) ⟨vmB, by simp, by decide⟩

/-- C6 (amended): when every creation-time fetch succeeds with the zero
timestamp, filterByLatest still returns a one-element list, but its element
is the nil pointer rather than one of the input candidates: a zero
timestamp never wins the strict After comparison seeded with the zero
time. -/
theorem c6_all_zero_yields_nil (d : Driver) (vmList : List VirtualMachine)
    (hz : ∀ vm ∈ vmList, d.vmConfig vm = Except.ok ⟨some 0⟩) :
    filterByLatest d vmList = Res.ok [none] := by
  have h := filterByLatestLoop_ok d (fun _ => 0) vmList none 0 hz
  rw [filterByLatest, h,
    latestAcc_of_le (fun _ => 0) vmList none 0 (fun v _ => Nat.le_refl 0)]

/-- Witness for C6 on a concrete two-machine list with zero timestamps. -/
theorem c6_witness :
    filterByLatest dAllZero [vmA, vmB] = Res.ok [none] :=
  c6_all_zero_yields_nil dAllZero [vmA, vmB] (fun vm _ => rfl)

/-- C6 counterexample: with the single zero-timestamp candidate vmA the
stage returns the nil pointer, which is not one of the input candidates. -/
theorem c6_counterexample :
    filterByLatest dAllZero [vmA] = Res.ok [(none : Option VirtualMachine)] ∧
      filterByLatest dAllZero [vmA] ≠ Res.ok [some vmA] := by
  exact ⟨by decide, by decide⟩

/-- C2: when the attached-tag fetches succeed and every category ID of an
attached tag resolves, the tag stage keeps exactly the candidates for which
every required tag is matched by some attached tag carrying the required
name and resolving to the required category name; and once one required tag
fails cleanly for a candidate, the remaining required tags are never
evaluated: the matched count is insensitive to everything after the failing
tag, so such a candidate is excluded because its count stops short of the
required total. -/
theorem c2_filterByTags_and_semantics (d : Driver) (vmTags : List Tag)
    (vmList : List VirtualMachine)
    (rts : VirtualMachine → List AttachedTag) (resolve : String → Category)
    (hat : ∀ vm ∈ vmList, d.getAttachedTags vm = Except.ok (rts vm))
    (hcat : ∀ vm ∈ vmList, ∀ a ∈ rts vm,
      d.getCategory a.CategoryID = Except.ok (resolve a.CategoryID)) :
    filterByTags d vmTags vmList =
      Res.ok (vmList.filter (fun vm => vmTags.all (fun t =>
        (rts vm).any (fun a =>
          (t.Name == a.Name) && (t.Category == (resolve a.CategoryID).Name))))) ∧
    ∀ (realTags : List AttachedTag) (t : Tag) (ts1 ts2 ts2' : List Tag),
      scanAttached d t realTags = Res.ok false →
      countMatched d realTags (ts1 ++ t :: ts2) =
        countMatched d realTags (ts1 ++ t :: ts2') := by
  constructor
  · exact filterByTags_ok d vmTags rts resolve vmList hat hcat
  · intro realTags t ts1 ts2 ts2' hfail
    exact countMatched_failfast d realTags t hfail ts1 ts2 ts2'

/-- Witness for C2: one required tag, one candidate carrying a matching
attached tag whose category resolves to the required category. -/
theorem c2_witness :
    filterByTags dTags [tagTeamOps] [vmA] = Res.ok [vmA] :=
  ((c2_filterByTags_and_semantics dTags [tagTeamOps] [vmA]
      (fun _ => [attTeam]) (fun _ => ⟨"ops"⟩)
      (fun vm _ => rfl) (fun vm _ a _ => rfl)).1).trans (by decide)

/-- C10 (amended): with an empty required-tag list the tag stage is the
identity on every candidate list whose attached-tag fetches succeed (the
fetch still runs per candidate, so a failing fetch propagates as an error
instead); and the pipeline guard of the tag stage holds whenever candidates
remain and the configured tag slice is non-nil, even when it is empty. -/
theorem c10_empty_tags_identity :
    (∀ (d : Driver) (vmList : List VirtualMachine),
      (∀ vm ∈ vmList, ∃ rt, d.getAttachedTags vm = Except.ok rt) →
      filterByTags d [] vmList = Res.ok vmList) ∧
    (∀ (c : Config) (vms : List VirtualMachine) (ts : List Tag),
      vms ≠ [] → c.Tags = some ts → tagsGuard c vms = true) := by
  constructor
  · exact fun d vmList h => filterByTags_nil_tags d vmList h
  · intro c vms ts hne htags
    have h1 : 0 < vms.length := List.length_pos.mpr hne
    simp [tagsGuard, htags, h1]

/-- Witness for C10: the empty required-tag list keeps the one candidate. -/
theorem c10_witness :
    filterByTags dTags [] [vmA] = Res.ok [vmA] :=
  c10_empty_tags_identity.1 dTags [vmA] (fun vm _ => ⟨[attTeam], rfl⟩)

/-- C10 counterexample: with a failing attached-tag lookup the stage with an
empty required-tag list is not the identity; it returns the wrapped error. -/
theorem c10_counterexample :
    filterByTags dTagsFail [] [vmA] =
        Res.err "failed return tags for the virtual machine: boom" ∧
      filterByTags dTagsFail [] [vmA] ≠ Res.ok [vmA] := by
  exact ⟨by decide, by decide⟩

/-- C4 (amended): when the pattern fails to compile, the name-regex stage
returns the empty list only for an empty input; for any non-empty input it
crashes by calling MatchString on the nil compiled pattern, instead of
silently matching nothing. -/
theorem c4_invalid_regex (compile : String → Option GoRegexp)
    (nameRegex : String) (h : compile nameRegex = none) :
    filterByNameRegex compile [] nameRegex = some [] ∧
    ∀ (vm : VirtualMachine) (vms : List VirtualMachine),
      filterByNameRegex compile (vm :: vms) nameRegex = none := by
  constructor
  · simp [filterByNameRegex]
  · intro vm vms
    simp [filterByNameRegex, h]

/-- Witness for C4 with the always-failing compiler. -/
theorem c4_witness :
    filterByNameRegex compileFailAll [] "(" = some [] ∧
      filterByNameRegex compileFailAll [vmA] "(" = none := by
  obtain ⟨h1, h2⟩ := c4_invalid_regex compileFailAll "(" rfl
  exact ⟨h1, h2 vmA []⟩

/-- C4 counterexample: on a failed compile with one candidate the stage
crashes (none) instead of returning the empty list. -/
theorem c4_counterexample :
    filterByNameRegex compileFailAll [vmA] "(" = none ∧
      (none : Option (List VirtualMachine)) ≠ some [] := by
  exact ⟨rfl, by decide⟩

/-- C5 (amended): each stage only narrows on success, with two provisos the
source forces: the host stage needs each candidate name to occur at most
once among the host member names (a duplicated member name duplicates the
candidate in the output), and the latest stage needs a non-empty input
(on the empty input it still emits its one-element slice). -/
theorem c5_monotonic_narrowing :
    (∀ (compile : String → Option GoRegexp) (vms : List VirtualMachine)
        (r : String) (out : List VirtualMachine),
      filterByNameRegex compile vms r = some out → out.length ≤ vms.length) ∧
    (∀ (d : Driver) (vms out : List VirtualMachine),
      filterByTemplate d vms = Res.ok out → out.length ≤ vms.length) ∧
    (∀ (d : Driver) (vmTags : List Tag) (vms out : List VirtualMachine),
      filterByTags d vmTags vms = Res.ok out → out.length ≤ vms.length) ∧
    (∀ (d : Driver) (c : Config) (vms out : List VirtualMachine),
      (∀ refs names, d.vmNames refs = Except.ok names → names.Nodup) →
      filterByHost d c vms = Res.ok out → out.length ≤ vms.length) ∧
    (∀ (d : Driver) (vms : List VirtualMachine)
        (out : List (Option VirtualMachine)),
      vms ≠ [] → filterByLatest d vms = Res.ok out → out.length ≤ vms.length) :=
  ⟨filterByNameRegex_length,
   filterByTemplate_length,
   fun d vmTags => filterByTags_length d vmTags,
   fun d c vms out hnd h => filterByHost_length d c hnd vms out h,
   fun d vms out hne h => filterByLatest_length d vms hne out h⟩

/-- Witness for C5: the template stage keeps the one template candidate and
its output is no longer than its input. -/
theorem c5_witness :
    filterByTemplate dTempl [vmA] = Res.ok [vmA] ∧
      ([vmA] : List VirtualMachine).length ≤ ([vmA] : List VirtualMachine).length :=
  ⟨by decide, c5_monotonic_narrowing.2.1 dTempl [vmA] [vmA] (by decide)⟩

/-- C5 counterexample: the host stage doubles a candidate when the host
member names repeat it, and the latest stage on the empty list emits a
one-element output. -/
theorem c5_counterexample :
    filterByHost dDupHost cHost [vmA] = Res.ok [vmA, vmA] ∧
      ¬ ([vmA, vmA] : List VirtualMachine).length ≤
          ([vmA] : List VirtualMachine).length ∧
    filterByLatest noDriver [] = Res.ok [(none : Option VirtualMachine)] ∧
      ¬ ([(none : Option VirtualMachine)] : List (Option VirtualMachine)).length ≤
          ([] : List VirtualMachine).length := by
  exact ⟨by decide, by decide, by decide, by decide⟩

/-- C7: under the finder contract that a successful glob lookup is
non-empty, every optional stage invocation recorded by the instrumented
filter chain has a strictly positive input length and its configuration
field set; contrapositively, a stage whose field is unset never appears in
the trace, and no optional stage ever runs on an empty candidate list. -/
theorem c7_optional_stage_discipline (d : Driver) (c : Config)
    (hfind : ∀ pat vms, d.virtualMachineList pat = Except.ok vms → vms ≠ []) :
    ∀ (s : StageId) (n : Nat), (s, n) ∈ (applyFiltersT d c).2 →
      0 < n ∧ stageConfigured c s = true := by
  intro s n hm
  simp only [applyFiltersT] at hm
  rcases stepChain_trace_mem _ _ _ hm with hm | ⟨vms4, _, hmem⟩
  · rcases stepChain_trace_mem _ _ _ hm with hm | ⟨vms3, _, hmem⟩
    · rcases stepChain_trace_mem _ _ _ hm with hm | ⟨vms2, _, hmem⟩
      · rcases stepChain_trace_mem _ _ _ hm with hm | ⟨vms1, hok1, hmem⟩
        · rw [finderStep_trace] at hm
          exact absurd hm (List.not_mem_nil _)
        · obtain ⟨heq, hg⟩ := regexStep_trace d c vms1 (s, n) hmem
          cases heq
          have hne := hfind c.Name vms1 (finderStep_ok d c vms1 hok1)
          exact ⟨List.length_pos.mpr hne, hg⟩
      · obtain ⟨heq, hg⟩ := templateStep_trace d c vms2 (s, n) hmem
        cases heq
        simp only [templateGuard, Bool.and_eq_true, decide_eq_true_eq] at hg
        exact ⟨hg.1, hg.2⟩
    · obtain ⟨heq, hg⟩ := hostStep_trace d c vms3 (s, n) hmem
      cases heq
      simp only [hostGuard, Bool.and_eq_true, decide_eq_true_eq] at hg
      exact ⟨hg.1, hg.2⟩
  · obtain ⟨heq, hg⟩ := tagsStep_trace d c vms4 (s, n) hmem
    cases heq
    simp only [tagsGuard, Bool.and_eq_true, decide_eq_true_eq] at hg
    exact ⟨hg.1, hg.2⟩

/-- Witness for C7: with only the template filter configured on a
one-machine inventory, the recorded template invocation has input length
one and its field set. -/
theorem c7_witness :
    0 < 1 ∧ stageConfigured cTempl StageId.templateStage = true :=
  c7_optional_stage_discipline dFindTempl cTempl
    (fun pat vms h => by
      injection h with h2
      simp [← h2])
    StageId.templateStage 1 (by decide)

/-- C1 (amended): on the list surviving the filter chain, Execute applies
the cardinality rule: empty fails with the no-match error; a single
survivor succeeds with its name; several survivors without Latest fail with
the ambiguous-match error; several survivors with Latest succeed with the
maximum-timestamp survivor provided the creation-time fetches succeed with
present timestamps of which at least one is strictly positive — with all
timestamps zero the latest stage leaves the nil pointer and Execute crashes
instead of succeeding. -/
theorem c1_execute_cardinality (d : Driver) (c : Config)
    (st : List VirtualMachine) (hst : applyFilters d c = Res.ok st) :
    (st = [] → execute d c = Res.err "no virtual machine matches the filters") ∧
    (∀ vm, st = [vm] → execute d c = Res.ok vm.Name) ∧
    (1 < st.length → c.Latest = false →
      execute d c = Res.err "more than one virtual machine matched the filters") ∧
    (1 < st.length → c.Latest = true →
      ∀ ts : VirtualMachine → Nat,
        (∀ vm ∈ st, d.vmConfig vm = Except.ok ⟨some (ts vm)⟩) →
        (∃ vm ∈ st, 0 < ts vm) →
        ∃ w, w ∈ st ∧ execute d c = Res.ok w.Name ∧ ∀ v ∈ st, ts v ≤ ts w) := by
  have hex : execute d c = finalize d c st := by
    simp only [execute, hst]
  refine ⟨?_, ?_, ?_, ?_⟩
  · intro h
    subst h
    rw [hex]
    rfl
  · intro vm h
    subst h
    rw [hex]
    rfl
  · intro hlen hlatest
    rw [hex]
    simp only [finalize]
    rw [if_neg (by omega : ¬ st.length = 0), if_pos hlen,
      if_neg (by simp [hlatest] : ¬ c.Latest = true)]
  · intro hlen hlatest ts hfetch hnz
    obtain ⟨w, l1, l2, hleq, hsplit, hl1, hmax⟩ :=
      filterByLatest_spec d ts st hfetch hnz
    refine ⟨w, ?_, ?_, hmax⟩
    · rw [hsplit]
      exact List.mem_append_right _ (List.mem_cons_self _ _)
    · rw [hex]
      simp only [finalize]
      rw [if_neg (by omega : ¬ st.length = 0), if_pos hlen, if_pos hlatest, hleq]
      simp [wrapErr]

/-- Witness for C1: two survivors with Latest set and timestamps 1 and 2
reduce to the newer machine. -/
theorem c1_witness :
    1 < ([vmA, vmB] : List VirtualMachine).length ∧
      ∃ w, w ∈ ([vmA, vmB] : List VirtualMachine) ∧
        execute dC1w cLatest = Res.ok w.Name ∧
        ∀ v ∈ ([vmA, vmB] : List VirtualMachine), tsAB v ≤ tsAB w :=
  ⟨by decide,
   (c1_execute_cardinality dC1w cLatest [vmA, vmB] (by decide)).2.2.2
     (by decide) rfl tsAB (fun vm _ => rfl) ⟨vmB, by simp, by decide⟩⟩

/-- C1 counterexample: two survivors with Latest set and both timestamps
zero make Execute crash on the nil pointer instead of succeeding with a
maximum-timestamp survivor. -/
theorem c1_counterexample :
    execute dZeroTimes cLatest = Res.crash ∧
      (Res.crash : Res String) ≠ Res.ok vmA.Name ∧
      (Res.crash : Res String) ≠ Res.ok vmB.Name := by
  exact ⟨by decide, by decide, by decide⟩

/-- C8 (amended): when the filter chain leaves no survivors, Execute fails
with exactly the message "no virtual machine matches the filters" — the
source wording has no word configured in it. -/
theorem c8_no_match_message (d : Driver) (c : Config)
    (h : applyFilters d c = Res.ok []) :
    execute d c = Res.err "no virtual machine matches the filters" := by
  simp only [execute, h]
  rfl

/-- Witness for C8: a regex stage that filters out the whole inventory makes
Execute fail with the no-match message. -/
theorem c8_witness :
    execute dNoMatch cRegex = Res.err "no virtual machine matches the filters" :=
  c8_no_match_message dNoMatch cRegex (by decide)

/-- C8 counterexample: the message Execute actually returns differs from the
wording the claim specifies. -/
theorem c8_counterexample :
    execute dNoMatch cRegex = Res.err "no virtual machine matches the filters" ∧
      "no virtual machine matches the filters" ≠
        "no virtual machine matches the configured filters" := by
  exact ⟨by decide, by decide⟩

/-! Lemmas about Configure. -/

theorem configureValidationErrors_withDefaultName (c : Config) :
    configureValidationErrors (withDefaultName c) = configureValidationErrors c := by
  simp only [withDefaultName]
  split <;> rfl

theorem cve_elem (c : Config) (msg : String)
    (h : msg ∈ configureValidationErrors c) :
    (msg = "\x27vcenter_server\x27 is required" ∧ c.VCenterServer = "") ∨
    (msg = "\x27username\x27 is required" ∧ c.Username = "") ∨
    (msg = "\x27password\x27 is required" ∧ c.Password = "") ∨
    (msg = "both name and category are required for tag" ∧
      ∃ t ∈ c.Tags.getD [], t.Name = "" ∨ t.Category = "") := by
  simp only [configureValidationErrors, List.mem_append] at h
  rcases h with ((h | h) | h) | h
  · by_cases hc : c.VCenterServer = ""
    · rw [if_pos hc] at h
      exact Or.inl ⟨List.mem_singleton.mp h, hc⟩
    · rw [if_neg hc] at h
      exact absurd h (List.not_mem_nil _)
  · by_cases hc : c.Username = ""
    · rw [if_pos hc] at h
      exact Or.inr (Or.inl ⟨List.mem_singleton.mp h, hc⟩)
    · rw [if_neg hc] at h
      exact absurd h (List.not_mem_nil _)
  · by_cases hc : c.Password = ""
    · rw [if_pos hc] at h
      exact Or.inr (Or.inr (Or.inl ⟨List.mem_singleton.mp h, hc⟩))
    · rw [if_neg hc] at h
      exact absurd h (List.not_mem_nil _)
  · rw [List.mem_flatMap] at h
    obtain ⟨t, ht, hmem⟩ := h
    by_cases hc : ((t.Name == "") || (t.Category == "")) = true
    · rw [if_pos hc] at hmem
      refine Or.inr (Or.inr (Or.inr ⟨List.mem_singleton.mp hmem, t, ht, ?_⟩))
      simpa using hc
    · rw [if_neg hc] at hmem
      exact absurd hmem (List.not_mem_nil _)

theorem cve_mem_vcenter (c : Config) :
    ("\x27vcenter_server\x27 is required" ∈ configureValidationErrors c) ↔
      c.VCenterServer = "" := by
  constructor
  · intro h
    rcases cve_elem c _ h with ⟨_, hc⟩ | ⟨hm, _⟩ | ⟨hm, _⟩ | ⟨hm, _⟩
    · exact hc
    · exact absurd hm (by decide)
    · exact absurd hm (by decide)
    · exact absurd hm (by decide)
  · intro hc
    simp only [configureValidationErrors, List.mem_append]
    exact Or.inl (Or.inl (Or.inl
      (by rw [if_pos hc]; exact List.mem_singleton.mpr rfl)))

theorem cve_mem_username (c : Config) :
    ("\x27username\x27 is required" ∈ configureValidationErrors c) ↔
      c.Username = "" := by
  constructor
  · intro h
    rcases cve_elem c _ h with ⟨hm, _⟩ | ⟨_, hc⟩ | ⟨hm, _⟩ | ⟨hm, _⟩
    · exact absurd hm (by decide)
    · exact hc
    · exact absurd hm (by decide)
    · exact absurd hm (by decide)
  · intro hc
    simp only [configureValidationErrors, List.mem_append]
    exact Or.inl (Or.inl (Or.inr
      (by rw [if_pos hc]; exact List.mem_singleton.mpr rfl)))

theorem cve_mem_password (c : Config) :
    ("\x27password\x27 is required" ∈ configureValidationErrors c) ↔
      c.Password = "" := by
  constructor
  · intro h
    rcases cve_elem c _ h with ⟨hm, _⟩ | ⟨hm, _⟩ | ⟨_, hc⟩ | ⟨hm, _⟩
    · exact absurd hm (by decide)
    · exact absurd hm (by decide)
    · exact hc
    · exact absurd hm (by decide)
  · intro hc
    simp only [configureValidationErrors, List.mem_append]
    exact Or.inl (Or.inr (by rw [if_pos hc]; exact List.mem_singleton.mpr rfl))

theorem cve_mem_tag (c : Config) :
    ("both name and category are required for tag" ∈ configureValidationErrors c) ↔
      ∃ t ∈ c.Tags.getD [], t.Name = "" ∨ t.Category = "" := by
  constructor
  · intro h
    rcases cve_elem c _ h with ⟨hm, _⟩ | ⟨hm, _⟩ | ⟨hm, _⟩ | ⟨_, hex⟩
    · exact absurd hm (by decide)
    · exact absurd hm (by decide)
    · exact absurd hm (by decide)
    · exact hex
  · rintro ⟨t, ht, hor⟩
    simp only [configureValidationErrors, List.mem_append]
    refine Or.inr ?_
    rw [List.mem_flatMap]
    refine ⟨t, ht, ?_⟩
    have hcond : ((t.Name == "") || (t.Category == "")) = true := by
      rcases hor with h1 | h1 <;> simp [h1]
    rw [if_pos hcond]
    exact List.mem_singleton.mpr rfl

theorem tagviol_flatMap_nil (l : List Tag)
    (h : ∀ t ∈ l, ¬ (t.Name = "" ∨ t.Category = "")) :
    (l.flatMap (fun tag =>
      if (tag.Name == "") || (tag.Category == "") then
        ["both name and category are required for tag"]
      else [])) = [] := by
  rw [List.flatMap_eq_nil_iff]
  intro t ht
  have hh := h t ht
  push_neg at hh
  simp [hh.1, hh.2]

theorem cve_eq_nil (c : Config) (h1 : ¬ c.VCenterServer = "")
    (h2 : ¬ c.Username = "") (h3 : ¬ c.Password = "")
    (h4 : ∀ t ∈ c.Tags.getD [], ¬ (t.Name = "" ∨ t.Category = "")) :
    configureValidationErrors c = [] := by
  simp only [configureValidationErrors, if_neg h1, if_neg h2, if_neg h3,
    List.nil_append]
  exact tagviol_flatMap_nil _ h4

theorem count_tag_flatMap :
    ∀ l : List Tag,
      (l.flatMap (fun tag =>
        if (tag.Name == "") || (tag.Category == "") then
          ["both name and category are required for tag"]
        else [])).count "both name and category are required for tag" =
        l.countP (fun t => (t.Name == "") || (t.Category == ""))
  | [] => rfl
  | t :: rest => by
    have ih := count_tag_flatMap rest
    by_cases hp : t.Name = "" ∨ t.Category = ""
    · have hb : ((t.Name == "") || (t.Category == "")) = true := by
        rcases hp with h1 | h1 <;> simp [h1]
      rw [List.flatMap_cons, if_pos hb, List.singleton_append, List.count_cons,
        List.countP_cons, ih, hb]
      simp
    · have hb : ((t.Name == "") || (t.Category == "")) = false := by
        push_neg at hp
        simp [hp.1, hp.2]
      rw [List.flatMap_cons, if_neg (by simp [hb]), List.nil_append, ih,
        List.countP_cons, hb]
      simp

theorem cve_count_tag (c : Config) :
    (configureValidationErrors c).count
        "both name and category are required for tag" =
      (c.Tags.getD []).countP (fun t => (t.Name == "") || (t.Category == "")) := by
  simp only [configureValidationErrors, List.count_append]
  have hb1 : (if c.VCenterServer = "" then ["\x27vcenter_server\x27 is required"]
      else []).count "both name and category are required for tag" = 0 := by
    by_cases h : c.VCenterServer = ""
    · rw [if_pos h]; decide
    · rw [if_neg h]; rfl
  have hb2 : (if c.Username = "" then ["\x27username\x27 is required"]
      else []).count "both name and category are required for tag" = 0 := by
    by_cases h : c.Username = ""
    · rw [if_pos h]; decide
    · rw [if_neg h]; rfl
  have hb3 : (if c.Password = "" then ["\x27password\x27 is required"]
      else []).count "both name and category are required for tag" = 0 := by
    by_cases h : c.Password = ""
    · rw [if_pos h]; decide
    · rw [if_neg h]; rfl
  rw [hb1, hb2, hb3, count_tag_flatMap]
  simp

/-- C9: Configure fails exactly when decoding failed or one of
vcenter_server, username, password is empty or some tag block misses its
name or its category; and a validation failure carries every violation
found in the single pass at once: each empty connection field contributes
its message and the bad-tag message appears once per offending tag block. -/
theorem c9_configure_validation (raws : Except String Config) :
    ((∃ e, raws = Except.error e) ∨
      (∃ c, raws = Except.ok c ∧
        (c.VCenterServer = "" ∨ c.Username = "" ∨ c.Password = "" ∨
          ∃ t ∈ c.Tags.getD [], t.Name = "" ∨ t.Category = "")) ↔
      ∀ c2, configure raws ≠ ConfigureResult.ok c2) ∧
    (∀ c msgs, raws = Except.ok c →
      configure raws = ConfigureResult.errs msgs →
      ((c.VCenterServer = "" ↔ "\x27vcenter_server\x27 is required" ∈ msgs) ∧
       (c.Username = "" ↔ "\x27username\x27 is required" ∈ msgs) ∧
       (c.Password = "" ↔ "\x27password\x27 is required" ∈ msgs) ∧
       msgs.count "both name and category are required for tag" =
         (c.Tags.getD []).countP
           (fun t => (t.Name == "") || (t.Category == "")))) := by
  constructor
  · constructor
    · rintro (⟨e, rfl⟩ | ⟨c, rfl, hviol⟩) c2 hcfg
      · exact ConfigureResult.noConfusion hcfg
      · have hne : configureValidationErrors (withDefaultName c) ≠ [] := by
          rw [configureValidationErrors_withDefaultName]
          rcases hviol with h | h | h | h
          · exact List.ne_nil_of_mem ((cve_mem_vcenter c).mpr h)
          · exact List.ne_nil_of_mem ((cve_mem_username c).mpr h)
          · exact List.ne_nil_of_mem ((cve_mem_password c).mpr h)
          · exact List.ne_nil_of_mem ((cve_mem_tag c).mpr h)
        simp only [configure] at hcfg
        cases hcve : configureValidationErrors (withDefaultName c) with
        | nil => exact hne hcve
        | cons m ms =>
          simp only [hcve] at hcfg
          exact ConfigureResult.noConfusion hcfg
    · intro hno
      rcases raws with e | c
      · exact Or.inl ⟨e, rfl⟩
      · refine Or.inr ⟨c, rfl, ?_⟩
        by_contra hv
        push_neg at hv
        obtain ⟨h1, h2, h3, h4⟩ := hv
        have hnil : configureValidationErrors (withDefaultName c) = [] := by
          rw [configureValidationErrors_withDefaultName]
          exact cve_eq_nil c h1 h2 h3
            (fun t ht => not_or.mpr (h4 t ht))
        exact hno (withDefaultName c) (by simp only [configure, hnil])
  · intro c msgs hraw hcfg
    subst hraw
    have hmsgs : msgs = configureValidationErrors (withDefaultName c) := by
      simp only [configure] at hcfg
      cases hcve : configureValidationErrors (withDefaultName c) with
      | nil =>
        simp only [hcve] at hcfg
        exact ConfigureResult.noConfusion hcfg
      | cons m ms =>
        simp only [hcve, ConfigureResult.errs.injEq] at hcfg
        exact hcfg.symm
    rw [hmsgs, configureValidationErrors_withDefaultName]
    exact ⟨(cve_mem_vcenter c).symm, (cve_mem_username c).symm,
      (cve_mem_password c).symm, cve_count_tag c⟩

/-- Witness for C9: a configuration with an empty username and a tag block
missing its name yields both aggregated messages at once. -/
theorem c9_witness :
    (cBadConfig.VCenterServer = "" ↔
      "\x27vcenter_server\x27 is required" ∈ badConfigMsgs) ∧
    (cBadConfig.Username = "" ↔ "\x27username\x27 is required" ∈ badConfigMsgs) ∧
    (cBadConfig.Password = "" ↔ "\x27password\x27 is required" ∈ badConfigMsgs) ∧
    badConfigMsgs.count "both name and category are required for tag" =
      (cBadConfig.Tags.getD []).countP
        (fun t => (t.Name == "") || (t.Category == "")) :=
  (c9_configure_validation (Except.ok cBadConfig)).2 cBadConfig badConfigMsgs
    rfl (by decide)

end PackerVsphere
